import Mathlib

/-!
Verification of the security-hardened query-construction layer of the
repository (module `app/db/pool.py`).

The Python module is shallowly embedded below.  Loosely-typed Python values
are modelled by the inductive `PyVal`; Python exceptions by `PyErr`;
functions that can `raise` return `Except PyErr _`.  Each public `Database`
operation is modelled as a pure function that stops at the point where the
built statement would be handed to the connection pool: the result records
either a propagated exception, a swallowed exception (the facade catches
non-security errors and returns `None`), or the exact SQL text and parameter
vector dispatched to the driver.  Logging and timing side effects are not
modelled.  String case operations are modelled for the ASCII range, which
covers every string the validators compare against.
-/

/-- A Python runtime value, restricted to the shapes the data-access layer
manipulates (scalars, strings, lists, tuples and string-keyed dicts).
Dicts are modelled as association lists in insertion order. -/
inductive PyVal where
  | null : PyVal
  | bool (b : Bool) : PyVal
  | int (n : Int) : PyVal
  | str (s : String) : PyVal
  | list (xs : List PyVal) : PyVal
  | tuple (xs : List PyVal) : PyVal
  | dict (entries : List (String × PyVal)) : PyVal

/-- A Python dict with string keys, as used for `data` and `conditions`
arguments. -/
abbrev Conds := List (String × PyVal)

/-- The exceptions the embedded code can raise.  `securityError` and
`validationError` are the module classes `SecurityError` and
`ValidationError`; `runtimeError` is the `RuntimeError` raised by
`Database.acquire` when the pool is missing; `valueError` models the
`ValueError` that `range` raises on a zero step. -/
inductive PyErr where
  | securityError (msg : String) : PyErr
  | validationError (msg : String) : PyErr
  | runtimeError (msg : String) : PyErr
  | valueError (msg : String) : PyErr
deriving DecidableEq

/-- Python `str.upper()` for the ASCII range (the only strings compared by
the validators are ASCII). -/
def pyUpper (s : String) : String := String.mk (s.data.map Char.toUpper)

/-- The character-list body of Python `str.strip()`: drop whitespace from
both ends. -/
def stripChars (l : List Char) : List Char :=
  ((l.dropWhile Char.isWhitespace).reverse.dropWhile Char.isWhitespace).reverse

/-- Python `str.strip()` (no argument): remove leading and trailing
whitespace. -/
def pyStrip (s : String) : String := String.mk (stripChars s.data)

/-- Python `sep.join(parts)`. -/
def joinSep (sep : String) : List String → String
  | [] => ""
  | [x] => x
  | x :: rest => x ++ sep ++ joinSep sep rest

/-- Python `str.split()` with no argument: split on whitespace runs,
dropping empty pieces.  `acc` holds the current token reversed. -/
def splitWsAux : List Char → List Char → List String
  | [], acc => if acc.isEmpty then [] else [String.mk acc.reverse]
  | c :: cs, acc =>
    if c.isWhitespace then
      if acc.isEmpty then splitWsAux cs []
      else String.mk acc.reverse :: splitWsAux cs []
    else splitWsAux cs (c :: acc)

/-- Python `str.split()` with no argument. -/
def pySplitWs (s : String) : List String := splitWsAux s.data []

/-- Number of `$` characters in a string: each positional placeholder the
builder emits contains exactly one `$`. -/
def dollarCount (s : String) : Nat := s.data.count '$'

/-- First character class of `IDENTIFIER_PATTERN`: `[a-zA-Z_]`. -/
def isIdentStart (c : Char) : Bool := c.isAlpha || c == '_'

/-- Continuation character class of `IDENTIFIER_PATTERN`: `[a-zA-Z0-9_]`. -/
def isIdentChar (c : Char) : Bool := c.isAlphanum || c == '_'

/-- Whether a character list matches the body of
`IDENTIFIER_PATTERN = ^[a-zA-Z_][a-zA-Z0-9_]{0,63}$`
(one start character followed by at most 63 continuation characters). -/
def identCore : List Char → Bool
  | [] => false
  | c :: rest => isIdentStart c && decide (rest.length ≤ 63) && rest.all isIdentChar

/-- Predicate form of `IDENTIFIER_PATTERN.match(s)`.  Python `$` (without
`re.MULTILINE`) also matches just before a single trailing newline, so a
core match followed by one final `\n` is accepted as well. -/
def identRegexAccepts (s : String) : Bool :=
  identCore s.data ||
    (match s.data.reverse with
     | '\n' :: rest => identCore rest.reverse
     | _ => false)

/-- Constant `ALLOWED_TABLES` (a frozenset in the source; membership only). -/
def allowedTables : List String := ["users", "products", "orders", "payments"]

/-- Constant `ALLOWED_ORDER_COLUMNS`. -/
def allowedOrderColumns : List (String × List String) :=
  [("users", ["id", "created_at", "updated_at", "email"]),
   ("products", ["id", "name", "price", "created_at"]),
   ("orders", ["id", "created_at", "status", "total"]),
   ("payments", ["id", "created_at", "amount"])]

/-- Constant `ALLOWED_OPERATORS`. -/
def allowedOperators : List String :=
  ["=", "!=", ">", "<", ">=", "<=",
   "LIKE", "ILIKE", "IN", "NOT IN",
   "IS NULL", "IS NOT NULL",
   "BETWEEN", "NOT BETWEEN"]

def MAX_IN_VALUES : Nat := 1000
def MAX_OR_CONDITIONS : Nat := 100
def MAX_LIMIT : Int := 10000
def MAX_OFFSET : Int := 1000000
def MAX_FIELDS : Nat := 50

/-- Embedding of `Validator.validate_identifier`.  The argument is typed `String`, so the
`isinstance` half of the first guard is vacuous; `not name` is the
empty-string test. -/
def validate_identifier (name : String) : Except PyErr String :=
  if name.isEmpty then
    .error (.securityError "Invalid identifier: must be non-empty string")
  else if identRegexAccepts name then
    .ok name
  else
    .error (.securityError
      ("Invalid identifier \x27" ++ name ++ "\x27: must match [a-zA-Z_][a-zA-Z0-9_]\x7b0,63\x7d"))

/-- Embedding of `Validator.validate_table`: identifier syntax first, then the table
allow-list.  `sorted(ALLOWED_TABLES)` is the constant
`orders, payments, products, users`. -/
def validate_table (table : String) : Except PyErr String :=
  match validate_identifier table with
  | .error e => .error e
  | .ok _ =>
    if allowedTables.contains table then .ok table
    else .error (.securityError
      ("Table \x27" ++ table ++ "\x27 not allowed. Allowed: orders, payments, products, users"))

/-- Embedding of `Validator.validate_operator`: strip, upper-case, then check membership
in `ALLOWED_OPERATORS`.  `sorted(ALLOWED_OPERATORS)` is the constant listed
in the message. -/
def validate_operator (op : String) : Except PyErr String :=
  let opUpper := pyUpper (pyStrip op)
  if allowedOperators.contains opUpper then .ok opUpper
  else .error (.securityError
    ("Operator \x27" ++ op ++ "\x27 not allowed. Allowed: !=, <, <=, =, >, >=, BETWEEN, ILIKE, IN, IS NOT NULL, IS NULL, LIKE, NOT BETWEEN, NOT IN"))

/-- Membership test `table in ALLOWED_ORDER_COLUMNS` plus lookup. -/
def orderColumnsFor (table : String) : Option (List String) :=
  (allowedOrderColumns.find? (fun kv => kv.1 == table)).map (·.2)

/-- Embedding of `Validator.validate_order_by`.  `ORDER_BY_PATTERN =
^[a-zA-Z_][a-zA-Z0-9_]{0,63}(\s+(ASC|DESC))?$` with `IGNORECASE` is applied
to the stripped string, which is equivalent to requiring its
whitespace-separated tokens to be a single identifier, or an identifier
followed by a case-insensitive ASC or DESC.  The later identifier and
direction re-checks of the source are kept even though the pattern already
guarantees them. -/
def validate_order_by (table : String) (orderBy : String) : Except PyErr String :=
  if (pyStrip orderBy).isEmpty then
    .error (.validationError "ORDER BY cannot be empty")
  else
    let ob := pyStrip orderBy
    let formatErr : Except PyErr String := .error (.securityError
      ("Invalid ORDER BY format: \x27" ++ ob ++ "\x27. Expected: \x27column [ASC|DESC]\x27"))
    let colCheck : String → String → Except PyErr String := fun column direction =>
      match validate_identifier column with
      | .error e => .error e
      | .ok _ =>
        match orderColumnsFor table with
        | some cols =>
          if cols.contains column then .ok (column ++ " " ++ direction)
          else .error (.securityError
            ("Column \x27" ++ column ++ "\x27 not allowed for ORDER BY on table \x27" ++ table ++ "\x27"))
        | none => .ok (column ++ " " ++ direction)
    match pySplitWs ob with
    | [column] =>
      if identCore column.data then colCheck column "ASC" else formatErr
    | [column, dir] =>
      if identCore column.data && (pyUpper dir == "ASC" || pyUpper dir == "DESC") then
        colCheck column (pyUpper dir)
      else formatErr
    | _ => formatErr

/-- Embedding of `Validator.validate_limit`.  The argument is an `int` already, so only
the sign and magnitude checks remain. -/
def validate_limit (limit : Int) : Except PyErr Int :=
  if limit < 0 then .error (.validationError "LIMIT must be non-negative integer")
  else if limit > MAX_LIMIT then .error (.validationError "LIMIT too large (max 10000)")
  else .ok limit

/-- Embedding of `Validator.validate_offset`. -/
def validate_offset (offset : Int) : Except PyErr Int :=
  if offset < 0 then .error (.validationError "OFFSET must be non-negative integer")
  else if offset > MAX_OFFSET then .error (.validationError "OFFSET too large (max 1000000)")
  else .ok offset

/-- Python `str(v)`.  Scalars are rendered exactly; for containers only the
leading bracket matters here (the result is consumed solely by
`validate_operator`, and no member of the operator allow-list starts with a
bracket), so their element rendering is abbreviated. -/
def pyStr : PyVal → String
  | .str s => s
  | .int n => toString n
  | .bool true => "True"
  | .bool false => "False"
  | .null => "None"
  | .list _ => "[...]"
  | .tuple _ => "(...)"
  | .dict _ => "\x7b...\x7d"

/-- Python `d.get(k)` / `d[k]` on a string-keyed dict. -/
def pyDictGet (d : Conds) (k : String) : Option PyVal :=
  (d.find? (fun kv => kv.1 == k)).map (·.2)

/-- Embedding of `ConditionHandler.normalize_condition`: turn `key: value` into a
`(column, operator, value)` triple. -/
def normalize_condition (key : String) (value : PyVal) : Except PyErr (String × String × PyVal) :=
  let column := pyStrip key
  match validate_identifier column with
  | .error e => .error e
  | .ok _ =>
    match value with
    | .null => .ok (column, "IS NULL", .null)
    | .list xs | .tuple xs =>
      -- (operator, value) form: exactly two elements whose head is a string
      -- that upper-cases (without stripping) into the operator set.
      match xs with
      | [PyVal.str s, v2] =>
        if allowedOperators.contains (pyUpper s) then
          match validate_operator s with
          | .error e => .error e
          | .ok op => .ok (column, op, v2)
        else if xs.isEmpty then .error (.validationError "IN clause cannot be empty")
        else if xs.length > MAX_IN_VALUES then
          .error (.validationError "Too many values in IN clause (max 1000)")
        else .ok (column, "IN", .list xs)
      | _ =>
        if xs.isEmpty then .error (.validationError "IN clause cannot be empty")
        else if xs.length > MAX_IN_VALUES then
          .error (.validationError "Too many values in IN clause (max 1000)")
        else .ok (column, "IN", .list xs)
    | .dict d =>
      match pyDictGet d "op" with
      | none => .error (.validationError "Dict condition must have \x27op\x27 key")
      | some opv =>
        match validate_operator (pyStr opv) with
        | .error e => .error e
        | .ok op => .ok (column, op, (pyDictGet d "value").getD PyVal.null)
    | v => .ok (column, "=", v)

/-- The placeholders `[$idx, $(idx+1), ...)` emitted for an `IN` list of
length `n`. -/
def placeholderList (idx n : Nat) : List String :=
  (List.range n).map (fun i => "$" ++ Nat.repr (idx + i))

/-- One non-`$or` iteration of the `build_where_clause` loop: normalize the
condition and render its SQL fragment.  Returns the fragment and the
parameters it consumes (the loop advances `param_index` by exactly their
number). -/
def renderCondition (key : String) (value : PyVal) (paramIdx : Nat) :
    Except PyErr (String × List PyVal) :=
  match normalize_condition key value with
  | .error e => .error e
  | .ok (column, operator, val) =>
    if operator == "IS NULL" || operator == "IS NOT NULL" then
      .ok (column ++ " " ++ operator, [])
    else if operator == "IN" || operator == "NOT IN" then
      match val with
      | .list xs | .tuple xs =>
        if xs.isEmpty then .ok ("FALSE", [])
        else if xs.length > MAX_IN_VALUES then
          .error (.validationError ("Too many values in " ++ operator ++ " (max 1000)"))
        else
          .ok (column ++ " " ++ operator ++ " (" ++ joinSep "," (placeholderList paramIdx xs.length) ++ ")", xs)
      | _ => .error (.validationError (operator ++ " requires list or tuple"))
    else if operator == "BETWEEN" || operator == "NOT BETWEEN" then
      match val with
      | .list xs | .tuple xs =>
        if xs.length == 2 then
          .ok (column ++ " " ++ operator ++ " $" ++ Nat.repr paramIdx ++ " AND $" ++ Nat.repr (paramIdx + 1), xs)
        else .error (.validationError (operator ++ " requires list/tuple with 2 values"))
      | _ => .error (.validationError (operator ++ " requires list/tuple with 2 values"))
    else
      .ok (column ++ " " ++ operator ++ " $" ++ Nat.repr paramIdx, [val])

/-- The `$or` inner loop of `build_where_clause`: each element must be a
dict and is rendered by a recursive call (`recur`), supplied by the fueled
driver below.  Returns the parenthesized sub-clauses and their parameters;
`none` means the recursion fuel ran out. -/
def orGroup (recur : Conds → Nat → Option (Except PyErr (String × List PyVal))) :
    List PyVal → Nat → Option (Except PyErr (List String × List PyVal))
  | [], _ => some (.ok ([], []))
  | PyVal.dict d :: rest, idx =>
    match recur d idx with
    | none => none
    | some (.error e) => some (.error e)
    | some (.ok (clause, ps)) =>
      match orGroup recur rest (idx + ps.length) with
      | none => none
      | some (.error e) => some (.error e)
      | some (.ok (parts, params)) =>
        some (.ok (("(" ++ clause ++ ")") :: parts, ps ++ params))
  | _ :: _, _ => some (.error (.validationError "OR condition must be dict"))

/-- One iteration of the `build_where_clause` loop: either the special
`$or` handling (when the key is `$or` and the value a list) or a normalized
condition.  Returns an optional fragment (the `$or` branch appends no part
when the list is empty) and the consumed parameters. -/
def whereEntry (recur : Conds → Nat → Option (Except PyErr (String × List PyVal)))
    (key : String) (value : PyVal) (idx : Nat) :
    Option (Except PyErr (Option String × List PyVal)) :=
  match key, value with
  | "$or", PyVal.list conds =>
    if conds.length > MAX_OR_CONDITIONS then
      some (.error (.validationError "Too many OR conditions (max 100)"))
    else
      match orGroup recur conds idx with
      | none => none
      | some (.error e) => some (.error e)
      | some (.ok (orParts, params)) =>
        some (.ok
          ((if orParts.isEmpty then none
            else some ("(" ++ joinSep " OR " orParts ++ ")")), params))
  | key, value =>
    match renderCondition key value idx with
    | .error e => some (.error e)
    | .ok (part, ps) => some (.ok (some part, ps))

/-- The full `build_where_clause` loop over the conditions dict, threading
`param_index`. -/
def whereParts (recur : Conds → Nat → Option (Except PyErr (String × List PyVal))) :
    Conds → Nat → Option (Except PyErr (List String × List PyVal))
  | [], _ => some (.ok ([], []))
  | (key, value) :: rest, idx =>
    match whereEntry recur key value idx with
    | none => none
    | some (.error e) => some (.error e)
    | some (.ok (part?, ps)) =>
      match whereParts recur rest (idx + ps.length) with
      | none => none
      | some (.error e) => some (.error e)
      | some (.ok (parts, params)) =>
        some (.ok (part?.toList ++ parts, ps ++ params))

/-- Embedding of `ConditionHandler.build_where_clause`, with explicit fuel bounding the
`$or` nesting depth (the Python function recurses on nested dicts; one fuel
unit is consumed per recursive call).  `none` = fuel exhausted. -/
def buildWhereF : Nat → Conds → Bool → Nat → Option (Except PyErr (String × List PyVal))
  | 0, _, _, _ => none
  | fuel + 1, conditions, useOr, startIndex =>
    if conditions.isEmpty then some (.ok ("TRUE", []))
    else
      match whereParts (fun c i => buildWhereF fuel c false i) conditions startIndex with
      | none => none
      | some (.error e) => some (.error e)
      | some (.ok (parts, params)) =>
        some (.ok
          ((if parts.isEmpty then "TRUE"
            else joinSep (if useOr then " OR " else " AND ") parts), params))

mutual
/-- Structural size of a `PyVal`, used only to bound the recursion fuel of
`build_where_clause`. -/
def pyValSize : PyVal → Nat
  | .null => 1
  | .bool _ => 1
  | .int _ => 1
  | .str _ => 1
  | .list xs => 1 + pyListSize xs
  | .tuple xs => 1 + pyListSize xs
  | .dict d => 1 + condsSize d

/-- Structural size of a list of `PyVal`s. -/
def pyListSize : List PyVal → Nat
  | [] => 1
  | x :: xs => 1 + pyValSize x + pyListSize xs

/-- Structural size of a conditions dict. -/
def condsSize : Conds → Nat
  | [] => 1
  | (_, v) :: rest => 1 + pyValSize v + condsSize rest
end

/-- Embedding of `ConditionHandler.build_where_clause`.  The fuel `condsSize conditions`
strictly exceeds the `$or` nesting depth, so the fuel-exhaustion branch is
unreachable (`buildWhereF_sufficient` below). -/
def build_where_clause (conditions : Conds) (useOr : Bool) (startIndex : Nat) :
    Except PyErr (String × List PyVal) :=
  match buildWhereF (condsSize conditions) conditions useOr startIndex with
  | some r => r
  | none => .error (.runtimeError "recursion depth")

example : build_where_clause [("age", PyVal.tuple [PyVal.str ">", PyVal.int 18]),
    ("city", PyVal.list [PyVal.str "A", PyVal.str "B"])] false 1
  = .ok ("age > $1 AND city IN ($2,$3)", [PyVal.int 18, PyVal.str "A", PyVal.str "B"]) := rfl

example : build_where_clause [("$or", PyVal.list [])] false 2 = .ok ("TRUE", []) := rfl

example : build_where_clause [("$or", PyVal.list [PyVal.dict [("a", PyVal.int 1)], PyVal.dict [("b", PyVal.str "x")]])] false 1
  = .ok ("((a = $1) OR (b = $2))", [PyVal.int 1, PyVal.str "x"]) := rfl

example : normalize_condition "age" (PyVal.tuple [PyVal.str " > ", PyVal.int 18])
  = .ok ("age", "IN", PyVal.list [PyVal.str " > ", PyVal.int 18]) := rfl

/-- Observable outcome of a CRUD facade call (`create`, `update`, `delete`,
`count`).  `raised e` = the exception `e` propagates to the caller;
`returnedNone` = an exception other than `SecurityError`/`ValidationError`
was caught by the facade, logged, and turned into a `None` result;
`executed q ps` = the statement `q` with parameter vector `ps` was handed to
the pool (modelling stops at dispatch). -/
inductive OpResult where
  | raised (e : PyErr) : OpResult
  | returnedNone : OpResult
  | executed (query : String) (params : List PyVal) : OpResult

/-- Whether the call propagated a `SecurityError`. -/
def OpResult.isSecurityRaised : OpResult → Bool
  | .raised (.securityError _) => true
  | _ => false

/-- Whether the call propagated a `ValidationError`. -/
def OpResult.isValidationRaised : OpResult → Bool
  | .raised (.validationError _) => true
  | _ => false

/-- The facade boundary shared by `create`, `update`, `delete` and `count`:
`SecurityError` and `ValidationError` are re-raised; any other exception is
logged and converted into a `None` result.  When statement construction
succeeds, execution needs the pool: with the pool missing, `acquire` raises
`RuntimeError` (`create`/`update`/`delete`) or the `None` pool yields an
`AttributeError` (`count`), and either lands in the catch-all, so the call
returns `None`. -/
def runFacade (poolInit : Bool) (inner : Except PyErr (String × List PyVal)) : OpResult :=
  match inner with
  | .error (.securityError m) => .raised (.securityError m)
  | .error (.validationError m) => .raised (.validationError m)
  | .error _ => .returnedNone
  | .ok (q, ps) => if poolInit then .executed q ps else .returnedNone

/-- Statement construction in `Database.create` (everything before the
`transaction` block).  `returning` is a `str` defaulting to `"id"`; the
empty string models a falsy value. -/
def createInner (table : String) (data : Conds) (returning : String) :
    Except PyErr (String × List PyVal) :=
  match validate_table table with
  | .error e => .error e
  | .ok table =>
    if data.isEmpty then .error (.validationError "Data cannot be empty")
    else
      match data.mapM (fun kv => validate_identifier kv.1) with
      | .error e => .error e
      | .ok columns =>
        let values := data.map (·.2)
        let query := "INSERT INTO " ++ table ++ " (" ++ joinSep ", " columns
          ++ ") VALUES (" ++ joinSep ", " (placeholderList 1 data.length) ++ ")"
        if returning.isEmpty then .ok (query, values)
        else
          match validate_identifier returning with
          | .error e => .error e
          | .ok ret => .ok (query ++ " RETURNING " ++ ret, values)

/-- Embedding of `Database.create`. -/
def Database.create (poolInit : Bool) (table : String) (data : Conds)
    (returning : String) : OpResult :=
  runFacade poolInit (createInner table data returning)

/-- The `SET` fragments of `Database.update`:
`col = $i` for `i = 1, 2, ...` over the data items. -/
def buildSetParts : Conds → Nat → Except PyErr (List String)
  | [], _ => .ok []
  | (k, _) :: rest, i =>
    match validate_identifier k with
    | .error e => .error e
    | .ok col =>
      match buildSetParts rest (i + 1) with
      | .error e => .error e
      | .ok parts => .ok ((col ++ " = $" ++ Nat.repr i) :: parts)

/-- Statement construction in `Database.update`. -/
def updateInner (table : String) (data conditions : Conds) (returning : String) :
    Except PyErr (String × List PyVal) :=
  match validate_table table with
  | .error e => .error e
  | .ok table =>
    if data.isEmpty then .error (.validationError "Update data cannot be empty")
    else if conditions.isEmpty then
      .error (.validationError "Update conditions cannot be empty (prevents accidental mass update)")
    else
      match buildSetParts data 1 with
      | .error e => .error e
      | .ok setParts =>
        let values := data.map (·.2)
        match build_where_clause conditions false (values.length + 1) with
        | .error e => .error e
        | .ok (whereClause, whereParams) =>
          let query := "UPDATE " ++ table ++ " SET " ++ joinSep ", " setParts
            ++ " WHERE " ++ whereClause
          let params := values ++ whereParams
          if returning.isEmpty then .ok (query, params)
          else
            match validate_identifier returning with
            | .error e => .error e
            | .ok ret => .ok (query ++ " RETURNING " ++ ret, params)

/-- Embedding of `Database.update`. -/
def Database.update (poolInit : Bool) (table : String) (data conditions : Conds)
    (returning : String) : OpResult :=
  runFacade poolInit (updateInner table data conditions returning)

/-- Statement construction in `Database.delete`. -/
def deleteInner (table : String) (conditions : Conds) (returning : String) :
    Except PyErr (String × List PyVal) :=
  match validate_table table with
  | .error e => .error e
  | .ok table =>
    if conditions.isEmpty then
      .error (.validationError "Delete conditions cannot be empty (prevents accidental truncate)")
    else
      match build_where_clause conditions false 1 with
      | .error e => .error e
      | .ok (whereClause, params) =>
        let query := "DELETE FROM " ++ table ++ " WHERE " ++ whereClause
        if returning.isEmpty then .ok (query, params)
        else
          match validate_identifier returning with
          | .error e => .error e
          | .ok ret => .ok (query ++ " RETURNING " ++ ret, params)

/-- Embedding of `Database.delete`. -/
def Database.delete (poolInit : Bool) (table : String) (conditions : Conds)
    (returning : String) : OpResult :=
  runFacade poolInit (deleteInner table conditions returning)

/-- Statement construction in `Database.count`.  `conditions=None` and
`conditions={}` behave identically (both falsy), so both are modelled by the
empty dict. -/
def countInner (table : String) (conditions : Conds) :
    Except PyErr (String × List PyVal) :=
  match validate_table table with
  | .error e => .error e
  | .ok table =>
    let query := "SELECT COUNT(*) FROM " ++ table
    if conditions.isEmpty then .ok (query, [])
    else
      match build_where_clause conditions false 1 with
      | .error e => .error e
      | .ok (whereClause, params) => .ok (query ++ " WHERE " ++ whereClause, params)

/-- Embedding of `Database.count`. -/
def Database.count (poolInit : Bool) (table : String) (conditions : Conds) : OpResult :=
  runFacade poolInit (countInner table conditions)

/-- Embedding of `Database._build_select_query`.  `fields=None` and `fields=[]` are both
falsy and modelled by `[]`; likewise `order_by=None` / `""`.  `limit` and
`offset` are compared against `None` (not truthiness), hence `Option`. -/
def buildSelectQuery (table : String) (conditions : Conds) (fields : List String)
    (orderBy : String) (limit offset : Option Int) (useOr : Bool) :
    Except PyErr (String × List PyVal) :=
  match validate_table table with
  | .error e => .error e
  | .ok table =>
    match (if fields.isEmpty then Except.ok "*"
           else if fields.length > MAX_FIELDS then
             Except.error (PyErr.validationError "Too many fields (max 50)")
           else (fields.mapM validate_identifier).map (joinSep ", ")) with
    | .error e => .error e
    | .ok fieldsStr =>
      let base := "SELECT " ++ fieldsStr ++ " FROM " ++ table
      match (if conditions.isEmpty then Except.ok (base, ([] : List PyVal))
             else (build_where_clause conditions useOr 1).map
               (fun wp => (base ++ " WHERE " ++ wp.1, wp.2))) with
      | .error e => .error e
      | .ok (q1, params) =>
        match (if orderBy.isEmpty then Except.ok q1
               else (validate_order_by table orderBy).map
                 (fun ob => q1 ++ " ORDER BY " ++ ob)) with
        | .error e => .error e
        | .ok q2 =>
          match (match limit with
                 | none => Except.ok (q2, params)
                 | some l =>
                   (validate_limit l).map (fun l =>
                     (q2 ++ " LIMIT $" ++ Nat.repr (params.length + 1),
                      params ++ [PyVal.int l]))) with
          | .error e => .error e
          | .ok (q3, params) =>
            match offset with
            | none => .ok (q3, params)
            | some o =>
              (validate_offset o).map (fun o =>
                (q3 ++ " OFFSET $" ++ Nat.repr (params.length + 1),
                 params ++ [PyVal.int o]))

/-- Which `asyncpg` fetch entry point `Database.read` uses. -/
inductive FetchStyle where
  | fetchRow : FetchStyle
  | fetchVal : FetchStyle
  | fetchAll : FetchStyle
deriving DecidableEq

/-- The `result_type` dispatch of `Database.read`: `"row"` → `fetchrow`,
`"val"` → `fetchval`, anything else (including `None`) → `fetch` (all
rows). -/
def readFetchStyle (resultType : Option String) : FetchStyle :=
  if resultType == some "row" then .fetchRow
  else if resultType == some "val" then .fetchVal
  else .fetchAll

/-- Observable outcome of `Database.read`. -/
inductive ReadResult where
  | raised (e : PyErr) : ReadResult
  | returnedNone : ReadResult
  | executed (style : FetchStyle) (query : String) (params : List PyVal) : ReadResult

/-- Whether the read propagated a `SecurityError`. -/
def ReadResult.isSecurityRaised : ReadResult → Bool
  | .raised (.securityError _) => true
  | _ => false

/-- Embedding of `Database.read`: build the SELECT, then fetch through the pool.  With
the pool missing, `self.pool.fetch*` raises `AttributeError`, which the
catch-all turns into a `None` result. -/
def Database.read (poolInit : Bool) (table : String) (conditions : Conds)
    (fields : List String) (orderBy : String) (limit offset : Option Int)
    (resultType : Option String) (useOr : Bool) : ReadResult :=
  match buildSelectQuery table conditions fields orderBy limit offset useOr with
  | .error (.securityError m) => .raised (.securityError m)
  | .error (.validationError m) => .raised (.validationError m)
  | .error _ => .returnedNone
  | .ok (q, ps) =>
    if poolInit then .executed (readFetchStyle resultType) q ps else .returnedNone

example : Database.create true "users" [("name", PyVal.str "a")] "id"
  = .executed "INSERT INTO users (name) VALUES ($1) RETURNING id" [PyVal.str "a"] := rfl
example : Database.create false "users" [("name", PyVal.str "a")] "id" = .returnedNone := rfl
example : Database.update true "users" [("lang", PyVal.str "ru")] [("$or", PyVal.list [])] "id"
  = .executed "UPDATE users SET lang = $1 WHERE TRUE RETURNING id" [PyVal.str "ru"] := rfl
example : Database.read true "users" [] [] "" none none none false
  = .executed .fetchAll "SELECT * FROM users" [] := rfl
example : Database.read true "users" [("id", PyVal.int 7)] ["id", "email"] "id DESC"
    (some 5) (some 0) (some "row") false
  = .executed .fetchRow "SELECT id, email FROM users WHERE id = $1 ORDER BY id DESC LIMIT $2 OFFSET $3"
      [PyVal.int 7, PyVal.int 5, PyVal.int 0] := rfl
example : Database.count true "users" [] = .executed "SELECT COUNT(*) FROM users" [] := rfl

/-- Python slicing loop `for i in range(0, len(items), chunk_size):
chunk = items[i:i+chunk_size]`, for a positive step.  `acc` holds the
current chunk reversed. -/
def chunkAcc (chunkSize : Nat) : List α → List α → List (List α)
  | [], acc => if acc.isEmpty then [] else [acc.reverse]
  | x :: xs, acc =>
    if acc.length + 1 == chunkSize then (x :: acc).reverse :: chunkAcc chunkSize xs []
    else chunkAcc chunkSize xs (x :: acc)

/-- Split a list into consecutive chunks of `chunkSize` (the final chunk may
be shorter). -/
def chunked (chunkSize : Nat) (l : List α) : List (List α) := chunkAcc chunkSize l []

/-- Per-row inner loop of `Database.bulk_create`: one placeholder and one
parameter per column taken from the first row; a row that lacks one of
those columns raises `ValidationError`. -/
def buildRowPlaceholders (item : Conds) : List String → Nat → Except PyErr (List String × List PyVal)
  | [], _ => .ok ([], [])
  | col :: cols, idx =>
    match pyDictGet item col with
    | none => .error (.validationError ("Column \x27" ++ col ++ "\x27 missing in item"))
    | some v =>
      match buildRowPlaceholders item cols (idx + 1) with
      | .error e => .error e
      | .ok (phs, ps) => .ok (("$" ++ Nat.repr idx) :: phs, v :: ps)

/-- Per-chunk row loop of `Database.bulk_create`: renders `(,...)` rows with
a contiguous placeholder range starting at `idx` (reset to 1 per chunk). -/
def buildChunkValues (columns : List String) : List Conds → Nat → Except PyErr (List String × List PyVal)
  | [], _ => .ok ([], [])
  | item :: rest, idx =>
    match buildRowPlaceholders item columns idx with
    | .error e => .error e
    | .ok (phs, ps) =>
      match buildChunkValues columns rest (idx + phs.length) with
      | .error e => .error e
      | .ok (rows, params) =>
        .ok (("(" ++ joinSep "," phs ++ ")") :: rows, ps ++ params)

/-- Observable outcome of `Database.bulk_create`.  `early v` = the
empty-items early return, before any validation or pool access;
`raised e` = exception propagated (this method re-raises everything);
`executed stmts inserted` = the per-chunk INSERT statements dispatched, in
order, with the total row count. -/
inductive BulkResult where
  | early (v : PyVal) : BulkResult
  | raised (e : PyErr) : BulkResult
  | executed (stmts : List (String × List PyVal)) (inserted : Nat) : BulkResult

/-- Whether the bulk call propagated a `ValidationError`. -/
def BulkResult.isValidationRaised : BulkResult → Bool
  | .raised (.validationError _) => true
  | _ => false

/-- The chunk loop of `Database.bulk_create`: per chunk, build the VALUES
rows (placeholders restarting at 1), re-validate `returning`, and execute
inside a transaction.  With the pool missing, `acquire` raises
`RuntimeError`, which this method re-raises. -/
def bulkChunksLoop (poolInit : Bool) (table : String) (columns validatedCols : List String)
    (returning : String) : List (List Conds) → Nat → Except PyErr (List (String × List PyVal) × Nat)
  | [], inserted => .ok ([], inserted)
  | chunk :: rest, inserted =>
    match buildChunkValues columns chunk 1 with
    | .error e => .error e
    | .ok (valuesRows, params) =>
      let baseQuery := "INSERT INTO " ++ table ++ " (" ++ joinSep "," validatedCols
        ++ ") VALUES " ++ joinSep "," valuesRows
      match (if returning.isEmpty then Except.ok baseQuery
             else (validate_identifier returning).map
               (fun rc => baseQuery ++ " RETURNING " ++ rc)) with
      | .error e => .error e
      | .ok query =>
        if poolInit then
          match bulkChunksLoop poolInit table columns validatedCols returning rest
              (inserted + chunk.length) with
          | .error e => .error e
          | .ok (stmts, total) => .ok ((query, params) :: stmts, total)
        else .error (.runtimeError "Database pool not initialized. Call create_session_pool() first.")

/-- Embedding of `Database.bulk_create`.  `returning=None` and `returning=""` are both
falsy and modelled by `""`.  `chunk_size` is a signed Python int: a zero
step makes `range` raise `ValueError` (re-raised like every other exception
here), and a negative step makes `range(0, len(items), step)` empty, so the
chunk loop body never runs, no row is examined, and the call returns `0`
(or the empty list) having dispatched nothing. -/
def Database.bulk_create (poolInit : Bool) (table : String) (items : List Conds)
    (chunkSize : Int) (returning : String) : BulkResult :=
  match items with
  | [] => .early (if returning.isEmpty then .int 0 else .list [])
  | first :: _ =>
    match validate_table table with
    | .error e => .raised e
    | .ok table =>
      let columns := first.map (·.1)
      match columns.mapM validate_identifier with
      | .error e => .raised e
      | .ok validatedCols =>
        if chunkSize == 0 then .raised (.valueError "range() arg 3 must not be zero")
        else
          let chunks := if chunkSize < 0 then [] else chunked chunkSize.toNat items
          match bulkChunksLoop poolInit table columns validatedCols returning chunks 0 with
          | .error e => .raised e
          | .ok (stmts, inserted) => .executed stmts inserted

example : Database.bulk_create true "users" [[("name", PyVal.str "a")], [("name", PyVal.str "b")]] 1 ""
  = .executed [("INSERT INTO users (name) VALUES ($1)", [PyVal.str "a"]),
               ("INSERT INTO users (name) VALUES ($1)", [PyVal.str "b"])] 2 := rfl
example : Database.bulk_create true "users"
    [[("a", PyVal.int 1), ("b", PyVal.int 2)], [("a", PyVal.int 3), ("b", PyVal.int 4)]] 1000 "id"
  = .executed [("INSERT INTO users (a,b) VALUES ($1,$2),($3,$4) RETURNING id",
                [PyVal.int 1, PyVal.int 2, PyVal.int 3, PyVal.int 4])] 2 := rfl
example : Database.bulk_create true "users" [[("a", PyVal.int 1)], []] 1000 ""
  = .raised (.validationError "Column \x27a\x27 missing in item") := rfl
example : Database.bulk_create false "nope" [] 1000 "" = .early (.int 0) := rfl
example : Database.bulk_create false "bad table" [] 1000 "id" = .early (.list []) := rfl

/- ------------------------------------------------------------------ -/
/- Dollar-counting infrastructure for the placeholder/parameter claim. -/
/- ------------------------------------------------------------------ -/

theorem dollarCount_append (a b : String) : dollarCount (a ++ b) = dollarCount a + dollarCount b := by
  simp [dollarCount, String.data_append]

theorem digitChar_ne_dollar (n : Nat) : Nat.digitChar n ≠ '$' := by
  rcases Nat.lt_or_ge n 16 with h | h
  · interval_cases n <;> decide
  · obtain ⟨m, rfl⟩ : ∃ m, n = m + 16 := ⟨n - 16, by omega⟩
    unfold Nat.digitChar
    repeat rw [if_neg (by omega)]
    decide

theorem toDigitsCore_ne_dollar :
    ∀ (f n : Nat) (ds : List Char), (∀ c ∈ ds, c ≠ '$') →
      ∀ c ∈ Nat.toDigitsCore 10 f n ds, c ≠ '$' := by
  intro f
  induction f with
  | zero => intro n ds h; simpa [Nat.toDigitsCore] using h
  | succ f ih =>
    intro n ds h c hc
    rw [Nat.toDigitsCore] at hc
    by_cases h10 : n / 10 = 0
    · simp only [h10, if_pos] at hc
      rcases List.mem_cons.1 hc with rfl | hmem
      · exact digitChar_ne_dollar _
      · exact h c hmem
    · simp only [h10, if_neg, if_false] at hc
      refine ih (n / 10) (Nat.digitChar (n % 10) :: ds) ?_ c hc
      intro d hd
      rcases List.mem_cons.1 hd with rfl | hmem
      · exact digitChar_ne_dollar _
      · exact h d hmem

/-- Decimal renderings of naturals contain no `$`. -/
theorem dollarCount_repr (n : Nat) : dollarCount (Nat.repr n) = 0 := by
  refine List.count_eq_zero.2 ?_
  intro hmem
  exact toDigitsCore_ne_dollar (n + 1) n [] (by simp) '$' hmem rfl

theorem dollarCount_joinSep (sep : String) (hsep : dollarCount sep = 0) :
    ∀ l : List String, dollarCount (joinSep sep l) = (l.map dollarCount).sum := by
  intro l
  induction l with
  | nil => simp [joinSep, dollarCount]
  | cons x rest ih =>
    cases rest with
    | nil => simp [joinSep]
    | cons y t =>
      simp only [joinSep, List.map_cons, List.sum_cons] at ih ⊢
      rw [dollarCount_append, dollarCount_append, hsep, ih]
      omega

theorem dollarCount_placeholder (idx : Nat) : dollarCount ("$" ++ Nat.repr idx) = 1 := by
  rw [dollarCount_append, dollarCount_repr]
  decide

theorem placeholderList_counts (idx n : Nat) :
    ((placeholderList idx n).map dollarCount).sum = n := by
  unfold placeholderList
  rw [List.map_map]
  have : ∀ m ∈ List.range n, (dollarCount ∘ fun i => "$" ++ Nat.repr (idx + i)) m = 1 := by
    intro m _
    simpa using dollarCount_placeholder (idx + m)
  rw [List.map_congr_left this]
  simp [List.map_const]

/- ------------------------------------------------------------------ -/
/- Validator facts.                                                    -/
/- ------------------------------------------------------------------ -/

theorem identCore_no_dollar {l : List Char} (h : identCore l = true) : l.count '$' = 0 := by
  cases l with
  | nil => simp [identCore] at h
  | cons c rest =>
    simp only [identCore, Bool.and_eq_true] at h
    obtain ⟨⟨hc, _⟩, hall⟩ := h
    refine List.count_eq_zero.2 ?_
    intro hmem
    rcases List.mem_cons.1 hmem with rfl | hmem2
    · exact absurd hc (by decide)
    · exact absurd ((List.all_eq_true.1 hall) _ hmem2) (by decide)

theorem identRegexAccepts_no_dollar {s : String} (h : identRegexAccepts s = true) :
    dollarCount s = 0 := by
  unfold identRegexAccepts at h
  rw [Bool.or_eq_true] at h
  rcases h with h | h
  · exact identCore_no_dollar h
  · unfold dollarCount
    split at h
    next rest heq =>
      have hs : s.data = rest.reverse ++ ['\n'] := by
        have := congrArg List.reverse heq
        simpa using this
      rw [hs, List.count_append]
      rw [identCore_no_dollar h]
      decide
    next => simp at h

theorem validate_identifier_ok {s t : String} (h : validate_identifier s = .ok t) :
    t = s ∧ identRegexAccepts s = true := by
  unfold validate_identifier at h
  split at h
  · simp at h
  · split at h
    next hacc => injection h with h; exact ⟨h.symm, hacc⟩
    next => simp at h

theorem validate_operator_ok {s op : String} (h : validate_operator s = .ok op) :
    op = pyUpper (pyStrip s) ∧ allowedOperators.contains op = true := by
  by_cases hc : allowedOperators.contains (pyUpper (pyStrip s)) = true
  · simp only [validate_operator, hc, if_true, Except.ok.injEq] at h
    exact ⟨h.symm, h ▸ hc⟩
  · simp only [validate_operator, hc, if_false] at h
    simp at h

theorem ops_no_dollar {op : String} (h : allowedOperators.contains op = true) :
    dollarCount op = 0 := by
  have hmem : op ∈ allowedOperators := by simpa using h
  fin_cases hmem <;> decide

theorem normalize_no_dollar {key : String} {value : PyVal} {col op : String} {v : PyVal}
    (h : normalize_condition key value = .ok (col, op, v)) :
    dollarCount col = 0 ∧ dollarCount op = 0 := by
  unfold normalize_condition at h
  simp only [] at h
  cases hid : validate_identifier (pyStrip key) with
  | error e => rw [hid] at h; simp at h
  | ok t =>
    rw [hid] at h
    have hcol := identRegexAccepts_no_dollar (validate_identifier_ok hid).2
    cases value with
    | null => injection h with h; cases h; exact ⟨hcol, by decide⟩
    | bool b => injection h with h; cases h; exact ⟨hcol, by decide⟩
    | int n => injection h with h; cases h; exact ⟨hcol, by decide⟩
    | str s => injection h with h; cases h; exact ⟨hcol, by decide⟩
    | dict d =>
      simp only [] at h
      split at h
      · simp at h
      · cases hop : validate_operator (pyStr _) with
        | error e => rw [hop] at h; simp at h
        | ok o =>
          rw [hop] at h
          injection h with h; cases h
          exact ⟨hcol, ops_no_dollar (validate_operator_ok hop).2⟩
    | list xs =>
      simp only [] at h
      split at h
      next s v2 =>
        split at h
        · cases hop : validate_operator s with
          | error e => rw [hop] at h; simp at h
          | ok o =>
            rw [hop] at h
            injection h with h; cases h
            exact ⟨hcol, ops_no_dollar (validate_operator_ok hop).2⟩
        · split at h
          · simp at h
          · split at h
            · simp at h
            · injection h with h; cases h; exact ⟨hcol, by decide⟩
      next =>
        split at h
        · simp at h
        · split at h
          · simp at h
          · injection h with h; cases h; exact ⟨hcol, by decide⟩
    | tuple xs =>
      simp only [] at h
      split at h
      next s v2 =>
        split at h
        · cases hop : validate_operator s with
          | error e => rw [hop] at h; simp at h
          | ok o =>
            rw [hop] at h
            injection h with h; cases h
            exact ⟨hcol, ops_no_dollar (validate_operator_ok hop).2⟩
        · split at h
          · simp at h
          · split at h
            · simp at h
            · injection h with h; cases h; exact ⟨hcol, by decide⟩
      next =>
        split at h
        · simp at h
        · split at h
          · simp at h
          · injection h with h; cases h; exact ⟨hcol, by decide⟩

theorem dollarCount_space : dollarCount " " = 0 := by decide
theorem dollarCount_lparen : dollarCount " (" = 0 := by decide
theorem dollarCount_rparen : dollarCount ")" = 0 := by decide
theorem dollarCount_comma : dollarCount "," = 0 := by decide
theorem dollarCount_spaceDollar : dollarCount " $" = 1 := by decide
theorem dollarCount_andDollar : dollarCount " AND $" = 1 := by decide
theorem dollarCount_false : dollarCount "FALSE" = 0 := by decide
theorem dollarCount_open : dollarCount "(" = 0 := by decide
theorem dollarCount_true : dollarCount "TRUE" = 0 := by decide

theorem renderCondition_count {k : String} {v : PyVal} {idx : Nat} {part : String} {ps : List PyVal}
    (h : renderCondition k v idx = .ok (part, ps)) : dollarCount part = ps.length := by
  unfold renderCondition at h
  cases hn : normalize_condition k v with
  | error e => rw [hn] at h; simp at h
  | ok triple =>
    obtain ⟨col, op, val⟩ := triple
    rw [hn] at h
    obtain ⟨hcol, hop⟩ := normalize_no_dollar hn
    simp only [] at h
    split at h
    · -- IS NULL / IS NOT NULL
      injection h with h; cases h
      simp [dollarCount_append, hcol, hop, dollarCount_space]
    · split at h
      · -- IN / NOT IN
        split at h
        next xs =>
          split at h
          · injection h with h; cases h; simp [dollarCount_false]
          · split at h
            · simp at h
            · injection h with h; cases h
              simp [dollarCount_append, hcol, hop, dollarCount_space, dollarCount_lparen,
                dollarCount_rparen, dollarCount_joinSep "," dollarCount_comma,
                placeholderList_counts]
        next xs =>
          split at h
          · injection h with h; cases h; simp [dollarCount_false]
          · split at h
            · simp at h
            · injection h with h; cases h
              simp [dollarCount_append, hcol, hop, dollarCount_space, dollarCount_lparen,
                dollarCount_rparen, dollarCount_joinSep "," dollarCount_comma,
                placeholderList_counts]
        next => simp at h
      · split at h
        · -- BETWEEN / NOT BETWEEN
          split at h
          next =>
            split at h
            next hlen =>
              injection h with h; cases h
              have hxs : ps.length = 2 := by simpa using hlen
              simp [dollarCount_append, hcol, hop, dollarCount_repr, dollarCount_space,
                dollarCount_spaceDollar, dollarCount_andDollar, hxs]
            next => simp at h
          next =>
            split at h
            next hlen =>
              injection h with h; cases h
              have hxs : ps.length = 2 := by simpa using hlen
              simp [dollarCount_append, hcol, hop, dollarCount_repr, dollarCount_space,
                dollarCount_spaceDollar, dollarCount_andDollar, hxs]
            next => simp at h
          next => simp at h
        · -- plain binary operator
          injection h with h; cases h
          simp [dollarCount_append, hcol, hop, dollarCount_repr, dollarCount_space,
            dollarCount_spaceDollar]

/-- The invariant carried by the recursive call supplied to the loop
helpers: a successful nested clause has as many `$` as parameters. -/
def RecurCounts (recur : Conds → Nat → Option (Except PyErr (String × List PyVal))) : Prop :=
  ∀ c i cl ps, recur c i = some (.ok (cl, ps)) → dollarCount cl = ps.length

theorem orGroup_count {recur} (hrec : RecurCounts recur) :
    ∀ items idx parts params, orGroup recur items idx = some (.ok (parts, params)) →
      (parts.map dollarCount).sum = params.length := by
  intro items
  induction items with
  | nil =>
    intro idx parts params h
    simp only [orGroup, Option.some.injEq, Except.ok.injEq, Prod.mk.injEq] at h
    obtain ⟨h1, h2⟩ := h
    simp [← h1, ← h2]
  | cons x rest ih =>
    intro idx parts params h
    cases x with
    | dict d =>
      simp only [orGroup] at h
      cases hr : recur d idx with
      | none => rw [hr] at h; simp at h
      | some r =>
        rw [hr] at h
        cases r with
        | error e => simp at h
        | ok clps =>
          obtain ⟨clause, ps⟩ := clps
          simp only [] at h
          cases hg : orGroup recur rest (idx + ps.length) with
          | none => rw [hg] at h; simp at h
          | some g =>
            rw [hg] at h
            cases g with
            | error e => simp at h
            | ok pp =>
              obtain ⟨parts2, params2⟩ := pp
              simp only [Option.some.injEq, Except.ok.injEq, Prod.mk.injEq] at h
              obtain ⟨h1, h2⟩ := h
              subst h1; subst h2
              have hcl := hrec d idx clause ps hr
              have hrest := ih (idx + ps.length) parts2 params2 hg
              simp [dollarCount_append, dollarCount_open, dollarCount_rparen, hcl, hrest]
    | null => simp [orGroup] at h
    | bool b => simp [orGroup] at h
    | int n => simp [orGroup] at h
    | str s => simp [orGroup] at h
    | list xs => simp [orGroup] at h
    | tuple xs => simp [orGroup] at h

/-- Dollar count of the optional fragment an iteration appends. -/
def optDollar : Option String → Nat
  | none => 0
  | some s => dollarCount s

theorem whereEntry_count {recur} (hrec : RecurCounts recur) {k : String} {v : PyVal}
    {idx : Nat} {part? : Option String} {ps : List PyVal}
    (h : whereEntry recur k v idx = some (.ok (part?, ps))) : optDollar part? = ps.length := by
  unfold whereEntry at h
  split at h
  · -- $or with a list value
    next conds =>
      split at h
      · simp at h
      · cases hg : orGroup recur conds idx with
        | none => rw [hg] at h; simp at h
        | some g =>
          rw [hg] at h
          cases g with
          | error e => simp at h
          | ok pp =>
            obtain ⟨orParts, params⟩ := pp
            simp only [Option.some.injEq, Except.ok.injEq, Prod.mk.injEq] at h
            obtain ⟨h1, h2⟩ := h
            subst h1; subst h2
            have hsum := orGroup_count hrec conds idx orParts params hg
            cases horp : orParts with
            | nil => simp [horp] at hsum; simp [optDollar, hsum.symm]
            | cons p rest =>
              rw [horp] at hsum
              simp [optDollar, dollarCount_append, dollarCount_open, dollarCount_rparen,
                dollarCount_joinSep " OR " (by decide), ← hsum, horp]
  · -- ordinary condition
    cases hr : renderCondition k v idx with
    | error e => rw [hr] at h; simp at h
    | ok frag =>
      obtain ⟨part, ps2⟩ := frag
      rw [hr] at h
      simp only [Option.some.injEq, Except.ok.injEq, Prod.mk.injEq] at h
      obtain ⟨h1, h2⟩ := h
      subst h1; subst h2
      simpa [optDollar] using renderCondition_count hr

theorem whereParts_count {recur} (hrec : RecurCounts recur) :
    ∀ conds idx parts params, whereParts recur conds idx = some (.ok (parts, params)) →
      (parts.map dollarCount).sum = params.length := by
  intro conds
  induction conds with
  | nil =>
    intro idx parts params h
    simp only [whereParts, Option.some.injEq, Except.ok.injEq, Prod.mk.injEq] at h
    obtain ⟨h1, h2⟩ := h
    simp [← h1, ← h2]
  | cons kv rest ih =>
    obtain ⟨key, value⟩ := kv
    intro idx parts params h
    simp only [whereParts] at h
    cases he : whereEntry recur key value idx with
    | none => rw [he] at h; simp at h
    | some r =>
      rw [he] at h
      cases r with
      | error e => simp at h
      | ok pp =>
        obtain ⟨part?, ps⟩ := pp
        simp only [] at h
        cases hw : whereParts recur rest (idx + ps.length) with
        | none => rw [hw] at h; simp at h
        | some g =>
          rw [hw] at h
          cases g with
          | error e => simp at h
          | ok pp2 =>
            obtain ⟨parts2, params2⟩ := pp2
            simp only [Option.some.injEq, Except.ok.injEq, Prod.mk.injEq] at h
            obtain ⟨h1, h2⟩ := h
            subst h1; subst h2
            have hone := whereEntry_count hrec he
            have hrest := ih (idx + ps.length) parts2 params2 hw
            cases part? with
            | none =>
              simp only [optDollar] at hone
              simp only [Option.toList, List.nil_append, List.length_append]
              omega
            | some p =>
              simp only [optDollar] at hone
              simp only [Option.toList, List.singleton_append, List.map_cons,
                List.sum_cons, List.length_append]
              omega

theorem buildWhereF_count :
    ∀ fuel conds useOr idx clause params,
      buildWhereF fuel conds useOr idx = some (.ok (clause, params)) →
      dollarCount clause = params.length := by
  intro fuel
  induction fuel with
  | zero => intro conds useOr idx clause params h; simp [buildWhereF] at h
  | succ f ih =>
    intro conds useOr idx clause params h
    have hrec : RecurCounts (fun c i => buildWhereF f c false i) :=
      fun c i cl ps hh => ih c false i cl ps hh
    rw [buildWhereF] at h
    split at h
    · simp only [Option.some.injEq, Except.ok.injEq, Prod.mk.injEq] at h
      obtain ⟨h1, h2⟩ := h
      simp [← h1, ← h2, dollarCount_true]
    · cases hw : whereParts (fun c i => buildWhereF f c false i) conds idx with
      | none => rw [hw] at h; simp at h
      | some r =>
        rw [hw] at h
        cases r with
        | error e => simp at h
        | ok pp =>
          obtain ⟨parts, params0⟩ := pp
          simp only [Option.some.injEq, Except.ok.injEq, Prod.mk.injEq] at h
          obtain ⟨h1, h2⟩ := h
          subst h2
          have hsum := whereParts_count hrec conds idx parts params0 hw
          cases hp : parts with
          | nil => rw [hp] at hsum; simp at hsum; simp [← h1, hp, dollarCount_true, ← hsum]
          | cons p rest =>
            rw [hp] at hsum
            rw [← h1, hp]
            simp only [List.isEmpty_cons, if_false, Bool.false_eq_true]
            cases useOr with
            | true => rw [if_pos rfl, dollarCount_joinSep " OR " (by decide)]; exact hsum
            | false =>
              rw [if_neg (by simp), dollarCount_joinSep " AND " (by decide)]
              exact hsum

/- Fuel sufficiency: one fuel unit is consumed per `$or` nesting level, and
`condsSize` strictly dominates the nesting depth, so the wrapper in
`build_where_clause` never hits the fuel-exhaustion branch. -/

theorem condsSize_pos (c : Conds) : 1 ≤ condsSize c := by
  cases c with
  | nil => simp [condsSize]
  | cons kv rest => obtain ⟨k, v⟩ := kv; simp [condsSize]; omega

theorem mem_pyListSize {x : PyVal} {l : List PyVal} (h : x ∈ l) :
    pyValSize x < pyListSize l := by
  induction l with
  | nil => cases h
  | cons y rest ih =>
    rcases List.mem_cons.1 h with rfl | hmem
    · simp [pyListSize]; omega
    · have := ih hmem; simp [pyListSize]; omega

theorem mem_condsSize {k : String} {v : PyVal} {c : Conds} (h : (k, v) ∈ c) :
    pyValSize v < condsSize c := by
  induction c with
  | nil => cases h
  | cons kv rest ih =>
    obtain ⟨k2, v2⟩ := kv
    rcases List.mem_cons.1 h with heq | hmem
    · injection heq with h1 h2; subst h2; simp [condsSize]; omega
    · have := ih hmem; simp [condsSize]; omega

theorem orGroup_ne_none {recur : Conds → Nat → Option (Except PyErr (String × List PyVal))} :
    ∀ items idx, (∀ d, PyVal.dict d ∈ items → ∀ i, recur d i ≠ none) →
      orGroup recur items idx ≠ none := by
  intro items
  induction items with
  | nil => intro idx _; simp [orGroup]
  | cons x rest ih =>
    intro idx hd
    cases x with
    | dict d =>
      simp only [orGroup]
      cases hr : recur d idx with
      | none => exact absurd hr (hd d (List.mem_cons_self _ _) idx)
      | some r =>
        cases r with
        | error e => simp
        | ok clps =>
          obtain ⟨clause, ps⟩ := clps
          simp only []
          cases hg : orGroup recur rest (idx + ps.length) with
          | none =>
            exact absurd hg (ih (idx + ps.length)
              (fun d2 hmem i => hd d2 (List.mem_cons_of_mem _ hmem) i))
          | some g => cases g with
            | error e => simp
            | ok pp => simp
    | null => simp [orGroup]
    | bool b => simp [orGroup]
    | int n => simp [orGroup]
    | str s => simp [orGroup]
    | list xs => simp [orGroup]
    | tuple xs => simp [orGroup]

theorem whereEntry_ne_none {recur : Conds → Nat → Option (Except PyErr (String × List PyVal))}
    {k : String} {v : PyVal} {idx : Nat}
    (hd : ∀ items d, v = PyVal.list items → PyVal.dict d ∈ items → ∀ i, recur d i ≠ none) :
    whereEntry recur k v idx ≠ none := by
  unfold whereEntry
  split
  · next conds =>
    split
    · simp
    · cases hg : orGroup recur conds idx with
      | none => exact absurd hg (orGroup_ne_none conds idx (fun d hmem i => hd conds d rfl hmem i))
      | some g => cases g with
        | error e => simp
        | ok pp => obtain ⟨a, b⟩ := pp; simp
  · cases renderCondition k v idx with
    | error e => simp
    | ok frag => obtain ⟨a, b⟩ := frag; simp

theorem whereParts_ne_none {recur : Conds → Nat → Option (Except PyErr (String × List PyVal))} :
    ∀ conds idx,
      (∀ k items d, (k, PyVal.list items) ∈ conds → PyVal.dict d ∈ items → ∀ i, recur d i ≠ none) →
      whereParts recur conds idx ≠ none := by
  intro conds
  induction conds with
  | nil => intro idx _; simp [whereParts]
  | cons kv rest ih =>
    obtain ⟨key, value⟩ := kv
    intro idx hd
    simp only [whereParts]
    cases he : whereEntry recur key value idx with
    | none =>
      refine absurd he (whereEntry_ne_none ?_)
      intro items d hv hmem i
      exact hd key items d (hv ▸ List.mem_cons_self _ _) hmem i
    | some r =>
      cases r with
      | error e => simp
      | ok pp =>
        obtain ⟨part?, ps⟩ := pp
        simp only []
        cases hw : whereParts recur rest (idx + ps.length) with
        | none =>
          refine absurd hw (ih (idx + ps.length) ?_)
          intro k2 items d hmem hdm i
          exact hd k2 items d (List.mem_cons_of_mem _ hmem) hdm i
        | some g => cases g with
          | error e => simp
          | ok pp2 => obtain ⟨a, b⟩ := pp2; simp

theorem buildWhereF_ne_none :
    ∀ fuel conds useOr idx, condsSize conds ≤ fuel →
      buildWhereF fuel conds useOr idx ≠ none := by
  intro fuel
  induction fuel with
  | zero => intro conds useOr idx h; exact absurd h (by have := condsSize_pos conds; omega)
  | succ f ih =>
    intro conds useOr idx hle
    rw [buildWhereF]
    split
    · simp
    · have hsub : ∀ k items d, (k, PyVal.list items) ∈ conds → PyVal.dict d ∈ items →
          ∀ i, buildWhereF f d false i ≠ none := by
        intro k items d hmem hdm i
        refine ih d false i ?_
        have h1 := mem_condsSize hmem
        have h2 := mem_pyListSize hdm
        simp only [pyValSize] at h1 h2
        omega
      cases hw : whereParts (fun c i => buildWhereF f c false i) conds idx with
      | none => exact absurd hw (whereParts_ne_none conds idx hsub)
      | some r => cases r with
        | error e => simp
        | ok pp => obtain ⟨a, b⟩ := pp; simp

/-- The wrapper in `build_where_clause` always receives a `some` result. -/
theorem build_where_clause_eq (conds : Conds) (useOr : Bool) (idx : Nat) :
    buildWhereF (condsSize conds) conds useOr idx = some (build_where_clause conds useOr idx) := by
  unfold build_where_clause
  cases hb : buildWhereF (condsSize conds) conds useOr idx with
  | none => exact absurd hb (buildWhereF_ne_none _ conds useOr idx (Nat.le_refl _))
  | some r => rfl

theorem build_where_clause_count {conds : Conds} {useOr : Bool} {idx : Nat}
    {clause : String} {params : List PyVal}
    (h : build_where_clause conds useOr idx = .ok (clause, params)) :
    dollarCount clause = params.length := by
  have := build_where_clause_eq conds useOr idx
  rw [h] at this
  exact buildWhereF_count (condsSize conds) conds useOr idx clause params this

/- ------------------------------------------------------------------ -/
/- Strip/upper interaction, for the (operator, value) dispatch claim.  -/
/- ------------------------------------------------------------------ -/

theorem toUpper_of_ws {c : Char} (h : c.isWhitespace = true) : Char.toUpper c = c := by
  simp only [Char.isWhitespace, Bool.or_eq_true, decide_eq_true_eq] at h
  rcases h with ((h | h) | h) | h <;> subst h <;> decide

theorem dropWhile_eq_self_of_head {p : Char → Bool} {l : List Char} {c : Char}
    (hh : l.head? = some c) (hc : p c = false) : l.dropWhile p = l := by
  cases l with
  | nil => simp
  | cons a rest =>
    simp only [List.head?_cons, Option.some.injEq] at hh
    subst hh
    simp [List.dropWhile_cons, hc]

theorem stripChars_eq_self {l : List Char} {c d : Char}
    (hh : l.head? = some c) (hc : c.isWhitespace = false)
    (hl : l.getLast? = some d) (hd : d.isWhitespace = false) :
    stripChars l = l := by
  unfold stripChars
  rw [dropWhile_eq_self_of_head hh hc]
  have hrev : l.reverse.head? = some d := by rw [List.head?_reverse]; exact hl
  rw [dropWhile_eq_self_of_head hrev hd, List.reverse_reverse]

/-- True exactly on a `some` holding a non-whitespace character. -/
def optNonWs : Option Char → Bool
  | some c => !c.isWhitespace
  | none => false

/-- Whether a character list is non-empty with non-whitespace first and last
characters. -/
def edgeNonWs (m : List Char) : Bool := optNonWs m.head? && optNonWs m.getLast?

theorem strip_fix_aux {l m : List Char} (hmap : l.map Char.toUpper = m)
    (hm : edgeNonWs m = true) : stripChars l = l := by
  subst hmap
  unfold edgeNonWs at hm
  rw [List.head?_map, List.getLast?_map, Bool.and_eq_true] at hm
  obtain ⟨hc, hd⟩ := hm
  cases hlh : l.head? with
  | none => rw [hlh] at hc; simp [optNonWs] at hc
  | some a =>
    cases hga : l.getLast? with
    | none => rw [hga] at hd; simp [optNonWs] at hd
    | some b =>
      rw [hlh] at hc
      rw [hga] at hd
      simp only [Option.map_some', optNonWs, Bool.not_eq_true'] at hc hd
      refine stripChars_eq_self hlh ?_ hga ?_
      · cases hws : a.isWhitespace with
        | false => rfl
        | true => exfalso; rw [toUpper_of_ws hws, hws] at hc; simp at hc
      · cases hws : b.isWhitespace with
        | false => rfl
        | true => exfalso; rw [toUpper_of_ws hws, hws] at hd; simp at hd

theorem pyStrip_eq_self_of_upper_mem {s : String}
    (h : allowedOperators.contains (pyUpper s) = true) : pyStrip s = s := by
  have hmem : pyUpper s ∈ allowedOperators := by simpa using h
  have key : stripChars s.data = s.data := by
    simp only [allowedOperators, List.mem_cons, List.not_mem_nil, or_false] at hmem
    rcases hmem with h1|h1|h1|h1|h1|h1|h1|h1|h1|h1|h1|h1|h1|h1 <;>
      exact strip_fix_aux (congrArg String.data h1) (by decide)
  unfold pyStrip
  rw [key]

/-- A string that upper-cases (without stripping) into the operator set is
accepted verbatim by the operator validator. -/
theorem validate_operator_of_upper_mem {s : String}
    (h : allowedOperators.contains (pyUpper s) = true) :
    validate_operator s = .ok (pyUpper s) := by
  unfold validate_operator
  simp only [pyStrip_eq_self_of_upper_mem h, h, if_true]

/- ------------------------------------------------------------------ -/
/- Facade-level support lemmas.                                        -/
/- ------------------------------------------------------------------ -/

theorem validate_identifier_err {s : String} {e : PyErr}
    (h : validate_identifier s = .error e) : ∃ m, e = .securityError m := by
  unfold validate_identifier at h
  split at h
  · injection h with h; exact ⟨_, h.symm⟩
  · split at h
    · simp at h
    · injection h with h; exact ⟨_, h.symm⟩

theorem validate_table_not_allowed {t : String} (h : allowedTables.contains t = false) :
    ∃ m, validate_table t = .error (.securityError m) := by
  unfold validate_table
  cases hid : validate_identifier t with
  | error e =>
    obtain ⟨m, hm⟩ := validate_identifier_err hid
    exact ⟨m, by rw [hm]⟩
  | ok t2 =>
    refine ⟨"Table \x27" ++ t ++ "\x27 not allowed. Allowed: orders, payments, products, users", ?_⟩
    simp [h]
    simpa using h

theorem validate_table_allowed {t : String} (h : allowedTables.contains t = true) :
    validate_table t = .ok t := by
  have hmem : t ∈ allowedTables := by simpa using h
  fin_cases hmem <;> rfl

theorem createInner_table_err {t : String} {e : PyErr} (h : validate_table t = .error e)
    (data : Conds) (r : String) : createInner t data r = .error e := by
  unfold createInner; rw [h]

theorem updateInner_table_err {t : String} {e : PyErr} (h : validate_table t = .error e)
    (data conds : Conds) (r : String) : updateInner t data conds r = .error e := by
  unfold updateInner; rw [h]

theorem deleteInner_table_err {t : String} {e : PyErr} (h : validate_table t = .error e)
    (conds : Conds) (r : String) : deleteInner t conds r = .error e := by
  unfold deleteInner; rw [h]

theorem countInner_table_err {t : String} {e : PyErr} (h : validate_table t = .error e)
    (conds : Conds) : countInner t conds = .error e := by
  unfold countInner; rw [h]

theorem buildSelectQuery_table_err {t : String} {e : PyErr} (h : validate_table t = .error e)
    (conds : Conds) (fields : List String) (ob : String) (lim off : Option Int) (uo : Bool) :
    buildSelectQuery t conds fields ob lim off uo = .error e := by
  unfold buildSelectQuery; rw [h]

theorem runFacade_security {inner : Except PyErr (String × List PyVal)} {m : String}
    (h : inner = .error (.securityError m)) (p : Bool) :
    (runFacade p inner).isSecurityRaised = true := by
  rw [h]; rfl

theorem runFacade_uninit {inner : Except PyErr (String × List PyVal)} {q : String}
    {ps : List PyVal} (h : runFacade true inner = .executed q ps) :
    runFacade false inner = .returnedNone := by
  cases inner with
  | error e => cases e <;> simp [runFacade] at h
  | ok pair => obtain ⟨a, b⟩ := pair; rfl

/- ------------------------------------------------------------------ -/
/- Bulk-insert support lemmas.                                         -/
/- ------------------------------------------------------------------ -/

theorem buildRowPlaceholders_err_only {item : Conds} :
    ∀ {cols : List String} {idx : Nat} {e : PyErr},
      buildRowPlaceholders item cols idx = .error e → ∃ m, e = .validationError m := by
  intro cols
  induction cols with
  | nil => intro idx e h; simp [buildRowPlaceholders] at h
  | cons c rest ih =>
    intro idx e h
    unfold buildRowPlaceholders at h
    cases hg : pyDictGet item c with
    | none => rw [hg] at h; injection h with h; exact ⟨_, h.symm⟩
    | some v =>
      rw [hg] at h
      cases hr : buildRowPlaceholders item rest (idx + 1) with
      | error e2 => rw [hr] at h; injection h with h; exact h ▸ ih hr
      | ok pp => obtain ⟨a, b⟩ := pp; rw [hr] at h; simp at h

theorem buildRowPlaceholders_missing {item : Conds} :
    ∀ {cols : List String} (idx : Nat), (∃ c ∈ cols, pyDictGet item c = none) →
      ∃ m, buildRowPlaceholders item cols idx = .error (.validationError m) := by
  intro cols
  induction cols with
  | nil => intro idx h; simp at h
  | cons c rest ih =>
    intro idx h
    cases hg : pyDictGet item c with
    | none => exact ⟨_, by unfold buildRowPlaceholders; rw [hg]⟩
    | some v =>
      obtain ⟨c2, hc2mem, hc2⟩ := h
      rcases List.mem_cons.1 hc2mem with rfl | hmem
      · rw [hg] at hc2; cases hc2
      · obtain ⟨m, hm⟩ := ih (idx + 1) ⟨c2, hmem, hc2⟩
        exact ⟨m, by unfold buildRowPlaceholders; rw [hg, hm]⟩

theorem buildRowPlaceholders_total {item : Conds} :
    ∀ {cols : List String} (idx : Nat), (∀ c ∈ cols, pyDictGet item c ≠ none) →
      ∃ phs ps, buildRowPlaceholders item cols idx = .ok (phs, ps) := by
  intro cols
  induction cols with
  | nil => intro idx _; exact ⟨[], [], rfl⟩
  | cons c rest ih =>
    intro idx h
    cases hg : pyDictGet item c with
    | none => exact absurd hg (h c (List.mem_cons_self _ _))
    | some v =>
      obtain ⟨phs, ps, hr⟩ := ih (idx + 1) (fun c2 hmem => h c2 (List.mem_cons_of_mem _ hmem))
      exact ⟨_, _, by unfold buildRowPlaceholders; rw [hg, hr]⟩

theorem buildRowPlaceholders_ok_complete {item : Conds} :
    ∀ {cols : List String} {idx : Nat} {phs : List String} {ps : List PyVal},
      buildRowPlaceholders item cols idx = .ok (phs, ps) →
      ∀ c ∈ cols, pyDictGet item c ≠ none := by
  intro cols
  induction cols with
  | nil => intro idx phs ps _ c hc; cases hc
  | cons c rest ih =>
    intro idx phs ps h c2 hc2
    unfold buildRowPlaceholders at h
    cases hg : pyDictGet item c with
    | none => rw [hg] at h; simp at h
    | some v =>
      rw [hg] at h
      cases hr : buildRowPlaceholders item rest (idx + 1) with
      | error e => rw [hr] at h; simp at h
      | ok pp =>
        obtain ⟨a, b⟩ := pp
        rcases List.mem_cons.1 hc2 with rfl | hmem
        · rw [hg]; simp
        · exact ih hr c2 hmem

theorem buildChunkValues_missing {columns : List String} :
    ∀ {chunk : List Conds} (idx : Nat),
      (∃ item ∈ chunk, ∃ c ∈ columns, pyDictGet item c = none) →
      ∃ m, buildChunkValues columns chunk idx = .error (.validationError m) := by
  intro chunk
  induction chunk with
  | nil => intro idx h; simp at h
  | cons item rest ih =>
    intro idx h
    cases hr : buildRowPlaceholders item columns idx with
    | error e =>
      obtain ⟨m, hm⟩ := buildRowPlaceholders_err_only hr
      exact ⟨m, by unfold buildChunkValues; rw [hr, hm]⟩
    | ok pp =>
      obtain ⟨phs, ps⟩ := pp
      obtain ⟨item2, hitem2, hbad⟩ := h
      rcases List.mem_cons.1 hitem2 with rfl | hmem
      · obtain ⟨c, hcmem, hcnone⟩ := hbad
        exact absurd hcnone (buildRowPlaceholders_ok_complete hr c hcmem)
      · obtain ⟨m, hm⟩ := ih (idx + phs.length) ⟨item2, hmem, hbad⟩
        exact ⟨m, by unfold buildChunkValues; rw [hr]; simp only [hm]⟩

theorem buildChunkValues_total {columns : List String} :
    ∀ {chunk : List Conds} (idx : Nat),
      (∀ item ∈ chunk, ∀ c ∈ columns, pyDictGet item c ≠ none) →
      ∃ rows params, buildChunkValues columns chunk idx = .ok (rows, params) := by
  intro chunk
  induction chunk with
  | nil => intro idx _; exact ⟨[], [], rfl⟩
  | cons item rest ih =>
    intro idx h
    obtain ⟨phs, ps, hr⟩ :=
      @buildRowPlaceholders_total item columns idx (h item (List.mem_cons_self _ _))
    obtain ⟨rows, params, hrest⟩ :=
      ih (idx + phs.length) (fun it hmem => h it (List.mem_cons_of_mem _ hmem))
    exact ⟨("(" ++ joinSep "," phs ++ ")") :: rows, ps ++ params,
      by unfold buildChunkValues; rw [hr]; simp only [hrest]⟩

theorem bulkChunksLoop_missing {table : String} {columns vcols : List String} {ret : String}
    (hret : ret.isEmpty = true ∨ validate_identifier ret = .ok ret) :
    ∀ (chunks : List (List Conds)) (inserted : Nat),
      (∃ chunk ∈ chunks, ∃ item ∈ chunk, ∃ c ∈ columns, pyDictGet item c = none) →
      ∃ m, bulkChunksLoop true table columns vcols ret chunks inserted
        = .error (.validationError m) := by
  intro chunks
  induction chunks with
  | nil => intro inserted h; simp at h
  | cons chunk rest ih =>
    intro inserted h
    by_cases hbad : ∃ item ∈ chunk, ∃ c ∈ columns, pyDictGet item c = none
    · obtain ⟨m, hm⟩ := @buildChunkValues_missing columns chunk 1 hbad
      exact ⟨m, by unfold bulkChunksLoop; rw [hm]⟩
    · have hgood : ∀ item ∈ chunk, ∀ c ∈ columns, pyDictGet item c ≠ none := by
        intro it hmem c hcmem hnone
        exact hbad ⟨it, hmem, c, hcmem, hnone⟩
      obtain ⟨rows, params, hok⟩ := @buildChunkValues_total columns chunk 1 hgood
      obtain ⟨chunk2, hchunk2, hrest⟩ := h
      rcases List.mem_cons.1 hchunk2 with rfl | hmem
      · exact absurd hrest hbad
      · obtain ⟨m, hm⟩ := ih (inserted + chunk.length) ⟨chunk2, hmem, hrest⟩
        refine ⟨m, ?_⟩
        unfold bulkChunksLoop
        rw [hok]
        rcases hret with hr | hr
        · simp [hr, hm]
        · cases hre : ret.isEmpty with
          | true => simp [hre, hm]
          | false => simp [hre, hr, hm, Except.map]

theorem chunkAcc_join (cs : Nat) :
    ∀ (l acc : List α), (chunkAcc cs l acc).flatten = acc.reverse ++ l := by
  intro l
  induction l with
  | nil =>
    intro acc
    unfold chunkAcc
    cases hacc : acc.isEmpty with
    | true =>
      simp only [if_true]
      rw [List.isEmpty_iff] at hacc
      simp [hacc]
    | false => simp
  | cons x xs ih =>
    intro acc
    unfold chunkAcc
    by_cases hhit : (acc.length + 1 == cs) = true
    · simp only [hhit, if_true, List.flatten_cons]
      rw [ih []]
      simp
    · simp only [hhit, if_false, Bool.false_eq_true]
      rw [ih (x :: acc)]
      simp

theorem chunked_flatten (cs : Nat) (l : List α) : (chunked cs l).flatten = l := by
  simpa using chunkAcc_join cs l []

/- ------------------------------------------------------------------ -/
/- Claim theorems.                                                     -/
/- ------------------------------------------------------------------ -/

/-- Claim C1: for every table name outside the allow-set
`users / products / orders / payments`, each of the five entry points
`create`, `read`, `update`, `delete` and `count` raises a `SecurityError`
that propagates to the caller, regardless of the other arguments and of the
pool state — in particular before any statement is dispatched (the result is
a `raised` outcome, never an `executed` one). -/
theorem claim1_table_whitelist_blocks_all_ops (t : String)
    (h : allowedTables.contains t = false) :
    ∀ (p : Bool) (data conds : Conds) (fields : List String) (orderBy : String)
      (lim off : Option Int) (rt : Option String) (uo : Bool) (ret : String),
      (Database.create p t data ret).isSecurityRaised = true ∧
      (Database.read p t conds fields orderBy lim off rt uo).isSecurityRaised = true ∧
      (Database.update p t data conds ret).isSecurityRaised = true ∧
      (Database.delete p t conds ret).isSecurityRaised = true ∧
      (Database.count p t conds).isSecurityRaised = true := by
  obtain ⟨m, hm⟩ := validate_table_not_allowed h
  intro p data conds fields orderBy lim off rt uo ret
  refine ⟨?_, ?_, ?_, ?_, ?_⟩
  · exact runFacade_security (createInner_table_err hm data ret) p
  · unfold Database.read
    rw [buildSelectQuery_table_err hm conds fields orderBy lim off uo]
    rfl
  · exact runFacade_security (updateInner_table_err hm data conds ret) p
  · exact runFacade_security (deleteInner_table_err hm conds ret) p
  · exact runFacade_security (countInner_table_err hm conds) p

/-- Witness for C1 at the concrete non-whitelisted table `admin_panel`. -/
theorem claim1_witness :
    allowedTables.contains "admin_panel" = false ∧
    (Database.create true "admin_panel" [("a", PyVal.int 1)] "id").isSecurityRaised = true ∧
    (Database.read true "admin_panel" [] [] "" none none none false).isSecurityRaised = true ∧
    (Database.update true "admin_panel" [("a", PyVal.int 1)] [("b", PyVal.int 2)] "id").isSecurityRaised = true ∧
    (Database.delete true "admin_panel" [("b", PyVal.int 2)] "id").isSecurityRaised = true ∧
    (Database.count true "admin_panel" []).isSecurityRaised = true := by
  have h := claim1_table_whitelist_blocks_all_ops "admin_panel" (by decide)
    true [("a", PyVal.int 1)] [("b", PyVal.int 2)] [] "" none none none false "id"
  exact ⟨by decide, h.1, by
    have := claim1_table_whitelist_blocks_all_ops "admin_panel" (by decide)
      true [("a", PyVal.int 1)] [] [] "" none none none false "id"
    exact this.2.1, h.2.2.1, h.2.2.2.1, h.2.2.2.2⟩

/-- Counterexample to claim C2 as stated: `update` called with empty
conditions but a non-whitelisted table fails with `SecurityError`, not
`ValidationError` (the table check runs first). -/
theorem claim2_counterexample :
    Database.update true "accounts" [("lang", PyVal.str "x")] [] "id"
      = .raised (.securityError
          "Table \x27accounts\x27 not allowed. Allowed: orders, payments, products, users") ∧
    (Database.update true "accounts" [("lang", PyVal.str "x")] [] "id").isValidationRaised
      = false := ⟨rfl, rfl⟩

/-- Claim C2 (amended): for every `update`/`delete` call with empty
conditions whose table passes the whitelist, the call raises a
`ValidationError` that propagates to the caller (never a `None` result), and
no statement reaches the database; a non-whitelisted table instead raises
`SecurityError` before the conditions are inspected. -/
theorem claim2_amended_empty_conditions_validation (t : String)
    (ht : allowedTables.contains t = true) :
    ∀ (p : Bool) (data : Conds) (ret : String),
      (Database.update p t data [] ret).isValidationRaised = true ∧
      (Database.delete p t [] ret).isValidationRaised = true := by
  have hv := validate_table_allowed ht
  intro p data ret
  constructor
  · unfold Database.update updateInner
    rw [hv]
    cases data with
    | nil => rfl
    | cons kv rest => rfl
  · unfold Database.delete deleteInner
    rw [hv]
    rfl

/-- Witness for the amended C2 at table `users`. -/
theorem claim2_witness :
    allowedTables.contains "users" = true ∧
    (Database.update true "users" [("lang", PyVal.str "ru")] [] "id").isValidationRaised = true ∧
    (Database.delete true "users" [] "id").isValidationRaised = true :=
  ⟨by decide,
   (claim2_amended_empty_conditions_validation "users" (by decide) true
     [("lang", PyVal.str "ru")] "id").1,
   (claim2_amended_empty_conditions_validation "users" (by decide) true
     [("x", PyVal.int 0)] "id").2⟩

/-- Counterexample to claim C4 as stated: operations invoked before
`create_session_pool()` do not propagate a NotInitialized error — the
facade catches the internal `RuntimeError`/`AttributeError` and returns
`None` (`returnedNone`), so nothing is raised to the caller. -/
theorem claim4_counterexample :
    Database.create false "users" [("name", PyVal.str "a")] "id" = .returnedNone ∧
    Database.read false "users" [] [] "" none none none false = .returnedNone ∧
    Database.count false "users" [] = .returnedNone := ⟨rfl, rfl, rfl⟩

/-- Claim C4 (amended): an operation invoked before `create_session_pool()`
is still fatal to that call — whenever the same arguments would dispatch a
statement with the pool initialized, the uninitialized call dispatches
nothing and returns `None` — but the NotInitialized condition is swallowed
by the facade (caught and logged), not propagated to the caller. -/
theorem claim4_amended_uninitialized_returns_none :
    (∀ t data ret q ps, Database.create true t data ret = .executed q ps →
        Database.create false t data ret = .returnedNone) ∧
    (∀ t conds fields ob lim off rt uo st q ps,
        Database.read true t conds fields ob lim off rt uo = .executed st q ps →
        Database.read false t conds fields ob lim off rt uo = .returnedNone) ∧
    (∀ t data conds ret q ps, Database.update true t data conds ret = .executed q ps →
        Database.update false t data conds ret = .returnedNone) ∧
    (∀ t conds ret q ps, Database.delete true t conds ret = .executed q ps →
        Database.delete false t conds ret = .returnedNone) ∧
    (∀ t conds q ps, Database.count true t conds = .executed q ps →
        Database.count false t conds = .returnedNone) := by
  refine ⟨?_, ?_, ?_, ?_, ?_⟩
  · intro t data ret q ps h; exact runFacade_uninit h
  · intro t conds fields ob lim off rt uo st q ps h
    unfold Database.read at h ⊢
    cases hb : buildSelectQuery t conds fields ob lim off uo with
    | error e => rw [hb] at h; cases e <;> simp at h
    | ok pair => obtain ⟨a, b⟩ := pair; rfl
  · intro t data conds ret q ps h; exact runFacade_uninit h
  · intro t conds ret q ps h; exact runFacade_uninit h
  · intro t conds q ps h; exact runFacade_uninit h

/-- Witness for the amended C4: a create that executes when the pool exists
returns `None` when it does not. -/
theorem claim4_witness :
    Database.create true "users" [("email", PyVal.str "e")] "id"
      = .executed "INSERT INTO users (email) VALUES ($1) RETURNING id" [PyVal.str "e"] ∧
    Database.create false "users" [("email", PyVal.str "e")] "id" = .returnedNone :=
  ⟨rfl, claim4_amended_uninitialized_returns_none.1 "users"
    [("email", PyVal.str "e")] "id" _ _ rfl⟩

/-- Counterexample to claim C5 as stated: `" > "` is a valid operator token
for the operator validator (which strips before upper-casing), yet
`normalize_condition` checks `value[0].upper()` without stripping, so the
pair `(" > ", 18)` falls through to the IN interpretation instead of being
treated as an (operator, value) pair. -/
theorem claim5_counterexample :
    validate_operator " > " = .ok ">" ∧
    normalize_condition "age" (PyVal.tuple [PyVal.str " > ", PyVal.int 18])
      = .ok ("age", "IN", PyVal.list [PyVal.str " > ", PyVal.int 18]) := ⟨rfl, rfl⟩

/-- Claim C5 (amended): a 2-element sequence is treated as an
(operator, value) pair exactly when its first element upper-cases — without
stripping — into the operator set; in that case the canonicalized
(validated) operator is returned with the second element as the value.
Validator-valid tokens with surrounding whitespace fall through to IN. -/
theorem claim5_amended_pair_dispatch_no_trim (key s : String) (v : PyVal)
    (hk : validate_identifier (pyStrip key) = .ok (pyStrip key))
    (hs : allowedOperators.contains (pyUpper s) = true) :
    normalize_condition key (PyVal.tuple [PyVal.str s, v])
      = .ok (pyStrip key, pyUpper s, v) ∧
    normalize_condition key (PyVal.list [PyVal.str s, v])
      = .ok (pyStrip key, pyUpper s, v) := by
  constructor <;>
  · unfold normalize_condition
    simp only []
    rw [hk]
    simp only [hs, if_true]
    rw [validate_operator_of_upper_mem hs]

/-- Witness for the amended C5: `("in", 5)` is dispatched as the operator
pair `IN`. -/
theorem claim5_witness :
    validate_identifier (pyStrip "age") = .ok (pyStrip "age") ∧
    allowedOperators.contains (pyUpper "in") = true ∧
    normalize_condition "age" (PyVal.tuple [PyVal.str "in", PyVal.int 5])
      = .ok ("age", "IN", PyVal.int 5) :=
  ⟨rfl, by decide,
   (claim5_amended_pair_dispatch_no_trim "age" "in" (PyVal.int 5) rfl (by decide)).1⟩

/-- Counterexample to claim C7 as stated: a batch containing a row that
misses the first-row column does not always fail with `ValidationError`.
With a non-whitelisted table the table check runs before any row is
examined and raises `SecurityError`; and with a negative `chunk_size` the
`range(0, len(items), step)` loop is empty, so the incomplete row is never
examined and the call returns `0` having dispatched nothing. -/
theorem claim7_counterexample :
    Database.bulk_create true "nope" [[("a", PyVal.int 1)], []] 1000 ""
      = .raised (.securityError
          "Table \x27nope\x27 not allowed. Allowed: orders, payments, products, users") ∧
    (Database.bulk_create true "nope" [[("a", PyVal.int 1)], []] 1000 "").isValidationRaised
      = false ∧
    Database.bulk_create true "users" [[("email", PyVal.str "a")], []] (-1) ""
      = .executed [] 0 ∧
    (Database.bulk_create true "users" [[("email", PyVal.str "a")], []] (-1) "").isValidationRaised
      = false := ⟨rfl, rfl, rfl, rfl⟩

/-- Claim C7 (amended): in `bulk_create` the column list is taken from the
first row, and — provided the call does not fail or degenerate earlier for
another reason (the table passes the whitelist, the first-row column names
validate, the truthy returning column validates, the chunk size is
positive so the chunk loop actually visits the rows — zero raises
`ValueError` and a negative value makes the loop empty and returns `0`
without examining any row — and the pool is initialized so that earlier
chunks can execute) — whenever any row does not supply all of those
columns, the batch fails with a `ValidationError` that is re-raised to the
caller, never converted into a `None`/`0`/empty result. -/
theorem claim7_amended_missing_column_validation
    (table : String) (first : Conds) (rest : List Conds) (cs : Int) (ret : String)
    (htab : allowedTables.contains table = true)
    (hcols : (first.map (·.1)).mapM validate_identifier = .ok (first.map (·.1)))
    (hret : ret.isEmpty = true ∨ validate_identifier ret = .ok ret)
    (hcs : 0 < cs)
    (hbad : ∃ item ∈ first :: rest, ∃ c ∈ first.map (·.1), pyDictGet item c = none) :
    (Database.bulk_create true table (first :: rest) cs ret).isValidationRaised = true := by
  unfold Database.bulk_create
  rw [validate_table_allowed htab]
  simp only []
  rw [hcols]
  have h0 : (cs == 0) = false := by
    simp only [beq_eq_false_iff_ne, ne_eq]
    omega
  simp only [h0, Bool.false_eq_true, if_false]
  rw [if_neg (by omega : ¬cs < 0)]
  obtain ⟨item, hitem, hbadc⟩ := hbad
  have hinflat : item ∈ (chunked cs.toNat (first :: rest)).flatten := by
    rw [chunked_flatten]; exact hitem
  obtain ⟨chunk, hchunk, hitemc⟩ := List.mem_flatten.1 hinflat
  obtain ⟨m, hm⟩ := @bulkChunksLoop_missing table (first.map (·.1)) (first.map (·.1)) ret
    hret (chunked cs.toNat (first :: rest)) 0 ⟨chunk, hchunk, item, hitemc, hbadc⟩
  rw [hm]
  rfl

/-- Witness for the amended C7: the second row misses the `email` column of
the first row; with chunk size 1 the first chunk executes and the second
raises. -/
theorem claim7_witness :
    allowedTables.contains "users" = true ∧ (0 : Int) < 1 ∧
    (Database.bulk_create true "users" [[("email", PyVal.str "a")], []] 1 "").isValidationRaised
      = true :=
  ⟨by decide, by decide,
   claim7_amended_missing_column_validation "users" [("email", PyVal.str "a")] [[]] 1 ""
     (by decide) rfl (Or.inl rfl) (by decide)
     ⟨[], by simp, "email", by simp, rfl⟩⟩

/-- Claim C3: for every conditions dict on which `build_where_clause`
succeeds, and every `use_or` flag and start index, the number of `$`
placeholder markers in the returned clause equals the length of the
returned parameter list. -/
theorem claim3_placeholder_count_eq_params
    (conds : Conds) (useOr : Bool) (startIdx : Nat) (clause : String) (params : List PyVal)
    (h : build_where_clause conds useOr startIdx = .ok (clause, params)) :
    dollarCount clause = params.length :=
  build_where_clause_count h

/-- Witness for C3 on a ConditionSet exercising IS NULL, a nested OR group
and BETWEEN. -/
theorem claim3_witness :
    build_where_clause
      [("deleted_at", PyVal.null),
       ("$or", PyVal.list [PyVal.dict [("a", PyVal.int 1)], PyVal.dict [("b", PyVal.str "x")]]),
       ("score", PyVal.tuple [PyVal.str "BETWEEN", PyVal.list [PyVal.int 1, PyVal.int 10]])]
      false 1
      = .ok ("deleted_at IS NULL AND ((a = $1) OR (b = $2)) AND score BETWEEN $3 AND $4",
             [PyVal.int 1, PyVal.str "x", PyVal.int 1, PyVal.int 10]) ∧
    dollarCount "deleted_at IS NULL AND ((a = $1) OR (b = $2)) AND score BETWEEN $3 AND $4" = 4 :=
  ⟨rfl, claim3_placeholder_count_eq_params
    [("deleted_at", PyVal.null),
     ("$or", PyVal.list [PyVal.dict [("a", PyVal.int 1)], PyVal.dict [("b", PyVal.str "x")]]),
     ("score", PyVal.tuple [PyVal.str "BETWEEN", PyVal.list [PyVal.int 1, PyVal.int 10]])]
    false 1
    "deleted_at IS NULL AND ((a = $1) OR (b = $2)) AND score BETWEEN $3 AND $4"
    [PyVal.int 1, PyVal.str "x", PyVal.int 1, PyVal.int 10] rfl⟩

/-- Claim C6: the ConditionSet from concrete scenario 5 renders to
`age > $1 AND city IN ($2,$3)` with parameters `[18, "A", "B"]` in that
order. -/
theorem claim6_concrete_scenario :
    build_where_clause [("age", PyVal.tuple [PyVal.str ">", PyVal.int 18]),
        ("city", PyVal.list [PyVal.str "A", PyVal.str "B"])] false 1
      = .ok ("age > $1 AND city IN ($2,$3)",
             [PyVal.int 18, PyVal.str "A", PyVal.str "B"]) := rfl

/-- Claim C8: for `{"$or": []}` the empty-conditions guard of `update` and
`delete` does not fire (the dict is non-empty), `build_where_clause`
returns the clause `TRUE` with no parameters, and the dispatched UPDATE and
DELETE statements carry the always-true WHERE predicate. -/
theorem claim8_empty_or_true_clause :
    build_where_clause [("$or", PyVal.list [])] false 1 = .ok ("TRUE", []) ∧
    Database.update true "users" [("lang", PyVal.str "ru")] [("$or", PyVal.list [])] "id"
      = .executed "UPDATE users SET lang = $1 WHERE TRUE RETURNING id" [PyVal.str "ru"] ∧
    Database.delete true "users" [("$or", PyVal.list [])] "id"
      = .executed "DELETE FROM users WHERE TRUE RETURNING id" [] := ⟨rfl, rfl, rfl⟩

/-- Claim C9: `bulk_create` with an empty items list returns `0` (or `[]`
when a truthy returning column is given) immediately, for every table
string — whitelisted or not, syntactically valid or not — without raising
and without touching the pool (the `early` outcome precedes all validation
and pool access). -/
theorem claim9_bulk_empty_early_return :
    ∀ (p : Bool) (table : String) (cs : Int) (ret : String),
      Database.bulk_create p table [] cs ret
        = .early (if ret.isEmpty then .int 0 else .list []) := by
  intro p table cs ret
  rfl

/-- Claim C10: for every `result_type` other than `"row"` and `"val"`
(including `None`, `"one-row"`, `"scalar"`, `"all"`), a read that executes
uses the fetch-all path, returning the full list of matching records. -/
theorem claim10_result_type_fallthrough :
    ∀ (t : String) (conds : Conds) (fields : List String) (ob : String)
      (lim off : Option Int) (rt : Option String) (uo : Bool)
      (st : FetchStyle) (q : String) (ps : List PyVal),
      rt ≠ some "row" → rt ≠ some "val" →
      Database.read true t conds fields ob lim off rt uo = .executed st q ps →
      st = FetchStyle.fetchAll := by
  intro t conds fields ob lim off rt uo st q ps h1 h2 h3
  unfold Database.read at h3
  cases hb : buildSelectQuery t conds fields ob lim off uo with
  | error e => rw [hb] at h3; cases e <;> simp at h3
  | ok pair =>
    obtain ⟨q2, ps2⟩ := pair
    rw [hb] at h3
    simp only [if_true, ReadResult.executed.injEq] at h3
    obtain ⟨hst, -, -⟩ := h3
    rw [← hst]
    simp [readFetchStyle, h1, h2]

/-- Witness for C10 with the spec-mentioned non-matching tag `one-row`. -/
theorem claim10_witness :
    (some "one-row" ≠ some "row") ∧ (some "one-row" ≠ some "val") ∧
    Database.read true "users" [] [] "" none none (some "one-row") false
      = .executed FetchStyle.fetchAll "SELECT * FROM users" [] ∧
    FetchStyle.fetchAll = FetchStyle.fetchAll :=
  ⟨by decide, by decide, rfl,
   claim10_result_type_fallthrough "users" [] [] "" none none (some "one-row") false
     FetchStyle.fetchAll "SELECT * FROM users" [] (by decide) (by decide) rfl⟩
example : (validate_table "hackers" matches .error (.securityError _)) := by decide
example : pyStrip "  a b \n" = "a b" := by decide
example : pySplitWs " id   DESC " = ["id", "DESC"] := by decide
example : pyUpper "is null" = "IS NULL" := by decide
